import Mathlib

/-!
# Verification of the `brandon` asset-assistant core

A shallow embedding, in Lean 4, of the algorithmic core of the `brandon`
repository (a Next.js brand-asset assistant), together with theorems settling
the specification claims about it.

Embedded components:

* the in-process rate limiter (`src/lib/rate-limit.ts`);
* the recency-aware hybrid ranker of the chat route `app/api/chat/route.ts`
  (staged as the third segment of `src/components/asset-card.tsx`);
* the response generator `generateChatResponse` and the zod output schema
  it validates against (`src/lib/gemini.ts`, `lib/types.ts`);
* the role helpers `getUserRole` / `requireAdmin` (`src/lib/auth-helpers.ts`).

Modelling conventions:

* JavaScript numbers used as times, scores and weights are modelled as `ℚ`
  (the repository only ever combines them with `+ - * /`, `Math.max` and
  comparisons, on values far below 2^53, so rational arithmetic is exact and
  float rounding is not observable at the granularity of the claims); a
  falsy non-number in a timestamp field — absent, `null`, NaN — is modelled
  as `none` of an `Option ℚ`, and the route's `||` fallback also treats the
  number `0` as falsy.
* External services (Supabase, Pinecone, Gemini) are oracles: a function is
  given the outcome of the remote call as an argument and the embedding covers
  everything the repository's own code does with that outcome.
* Mutable state (the rate-limit store) is passed explicitly: each call returns
  the updated store next to its result.
-/

namespace Brandon

/-! ## Rate limiter — `src/lib/rate-limit.ts`

The store is `const store: RateLimitStore = {}`, a mutable map from identifier
to `{ count, resetTime }`.  `checkRateLimit` is the only writer.  Times are
`Date.now()` milliseconds, modelled as `Nat`.
-/

structure RateLimitEntry where
  count : Nat
  resetTime : Nat
deriving Repr, DecidableEq

/-- The mutable module-level map `interface RateLimitStore { [key: string]: { count, resetTime } }`. -/
def RateLimitStore : Type := String → Option RateLimitEntry

def emptyStore : RateLimitStore := fun _ => none

structure RateLimitConfig where
  windowMs : Nat
  maxRequests : Nat
deriving Repr, DecidableEq

/-- The default config `DEFAULT_RATE_LIMIT = { windowMs: 60 * 1000, maxRequests: 20 }`. -/
def DEFAULT_RATE_LIMIT : RateLimitConfig :=
  { windowMs := 60 * 1000, maxRequests := 20 }

/-- The `RateLimitInfo` record from `lib/types.ts`.  `remaining` is kept as `Int` so that
`Math.max(0, config.maxRequests - limitInfo.count)` is transcribed literally. -/
structure RateLimitInfo where
  limit : Nat
  remaining : Int
  reset : Nat
deriving Repr, DecidableEq

/-- The function `checkRateLimit(identifier, config)` of `src/lib/rate-limit.ts`, with the
ambient time `Date.now()` and the mutable module-level `store` made explicit.

Step by step against the source:
1. clean-up: `if (store[key] && store[key].resetTime < now) delete store[key]`;
2. init: `if (!store[key]) store[key] = { count: 0, resetTime: now + config.windowMs }`;
3. `limitInfo.count++` (mutates the entry held in the store);
4. `remaining = Math.max(0, config.maxRequests - limitInfo.count)` reads the
   incremented count. -/
def checkRateLimit (now : Nat) (identifier : String) (config : RateLimitConfig)
    (store : RateLimitStore) : RateLimitStore × RateLimitInfo :=
  let key := identifier
  let cleaned : Option RateLimitEntry :=
    match store key with
    | some e => if e.resetTime < now then none else some e
    | none => none
  let limitInfo : RateLimitEntry :=
    cleaned.getD { count := 0, resetTime := now + config.windowMs }
  let updated : RateLimitEntry := { limitInfo with count := limitInfo.count + 1 }
  let store' : RateLimitStore := fun k => if k = key then some updated else store k
  let remaining : Int := max 0 ((config.maxRequests : Int) - (updated.count : Int))
  (store', { limit := config.maxRequests, remaining := remaining, reset := updated.resetTime })

/-- The gate `isRateLimited(info) { return info.remaining <= 0 }`. -/
def isRateLimited (info : RateLimitInfo) : Bool :=
  decide (info.remaining ≤ 0)

/-- A sequence of `checkRateLimit` calls for one identifier at the given times,
threading the store; returns the final store and every returned info record. -/
def runCalls (identifier : String) (config : RateLimitConfig) (times : List Nat)
    (store : RateLimitStore) : RateLimitStore × List RateLimitInfo :=
  match times with
  | [] => (store, [])
  | t :: ts =>
    let r := checkRateLimit t identifier config store
    let rest := runCalls identifier config ts r.1
    (rest.1, r.2 :: rest.2)

/-- C1: under the default config (`maxRequests = 20`) the code rejects the
20th call of a window, not the 21st: evaluated on a fresh identity calling 21
times at `t = 0` and once at `t = 60001` (strictly after the reset time), the
first 19 calls are accepted, the 20th and the 21st both return
`remaining = 0` with `isRateLimited = true` and a reset time in the future,
and the post-reset call is accepted with `remaining = limit - 1 = 19`.  Only
19 requests per window ever succeed, contradicting the documented limit of
20 requests per minute. -/
theorem c1_twentieth_call_rejected :
    (((runCalls "user" DEFAULT_RATE_LIMIT (List.replicate 21 0 ++ [60001])
        emptyStore).2.take 19).all (fun i => !(isRateLimited i))) = true ∧
    ((runCalls "user" DEFAULT_RATE_LIMIT (List.replicate 21 0 ++ [60001])
        emptyStore).2[19]? = some { limit := 20, remaining := 0, reset := 60000 }) ∧
    (((runCalls "user" DEFAULT_RATE_LIMIT (List.replicate 21 0 ++ [60001])
        emptyStore).2[19]?).map isRateLimited = some true) ∧
    (((runCalls "user" DEFAULT_RATE_LIMIT (List.replicate 21 0 ++ [60001])
        emptyStore).2[20]?).map isRateLimited = some true) ∧
    ((runCalls "user" DEFAULT_RATE_LIMIT (List.replicate 21 0 ++ [60001])
        emptyStore).2[21]? = some { limit := 20, remaining := 19, reset := 120001 }) := by
  decide

/-- Store used by the C7 counterexample: one identity with a live window,
`count = 5`, `resetTime = 100`. -/
def c7Store : RateLimitStore :=
  fun k => if k = "user" then some { count := 5, resetTime := 100 } else none

/-- C7 counterexample: the claim says the window is recreated exactly when
`now ≥ resetTime`, but the clean-up guard in the code is the strict
`store[key].resetTime < now`.  At `now = 100 = resetTime` the entry is kept
and incremented (`count` 5 ↦ 6, `resetTime` unchanged), instead of being
recreated as `{ count := 1, resetTime := 100 + 60000 }`. -/
theorem c7_counterexample :
    (checkRateLimit 100 "user" DEFAULT_RATE_LIMIT c7Store).1 "user" =
      some { count := 6, resetTime := 100 } ∧
    (checkRateLimit 100 "user" DEFAULT_RATE_LIMIT c7Store).1 "user" ≠
      some { count := 1, resetTime := 100 + DEFAULT_RATE_LIMIT.windowMs } := by
  constructor
  · rfl
  · decide

/-- C7 (amended): for every stored entry, a call at `now ≤ resetTime` keeps the
window and increments its count by one (so the count is monotonically
non-decreasing within a window), and the window is recreated — fresh count,
fresh `resetTime`, never decremented — exactly when `now` is STRICTLY greater
than the stored `resetTime`. -/
theorem c7_window_monotone_and_reset (now : Nat) (id : String)
    (cfg : RateLimitConfig) (store : RateLimitStore) (e : RateLimitEntry)
    (h : store id = some e) :
    (now ≤ e.resetTime →
      (checkRateLimit now id cfg store).1 id =
        some { count := e.count + 1, resetTime := e.resetTime } ∧
      e.count ≤ e.count + 1) ∧
    (e.resetTime < now →
      (checkRateLimit now id cfg store).1 id =
        some { count := 1, resetTime := now + cfg.windowMs }) := by
  constructor
  · intro hle
    refine ⟨?_, Nat.le_succ _⟩
    simp [checkRateLimit, h, if_neg (Nat.not_lt.mpr hle)]
  · intro hlt
    simp [checkRateLimit, h, if_pos hlt]

/-- Witness for `c7_window_monotone_and_reset` at a concrete store. -/
theorem c7_window_monotone_and_reset_witness :
    (checkRateLimit 100 "user" DEFAULT_RATE_LIMIT c7Store).1 "user" =
      some { count := 6, resetTime := 100 } ∧
    (checkRateLimit 101 "user" DEFAULT_RATE_LIMIT c7Store).1 "user" =
      some { count := 1, resetTime := 101 + DEFAULT_RATE_LIMIT.windowMs } := by
  refine ⟨?_, ?_⟩
  · exact ((c7_window_monotone_and_reset 100 "user" DEFAULT_RATE_LIMIT c7Store
      { count := 5, resetTime := 100 } rfl).1 (by decide)).1
  · exact (c7_window_monotone_and_reset 101 "user" DEFAULT_RATE_LIMIT c7Store
      { count := 5, resetTime := 100 } rfl).2 (by decide)

/-- C9: every call with a genuine limit (`maxRequests ≥ 1`; the repository's
only config is the default 20) returns a record with
`limit = config.maxRequests`, `0 ≤ remaining ≤ limit - 1` (never `limit`,
because the count is incremented before `remaining` is computed), and a reset
time that is never in the past. -/
theorem c9_info_bounds (now : Nat) (id : String) (cfg : RateLimitConfig)
    (store : RateLimitStore) (hmax : 1 ≤ cfg.maxRequests) :
    (checkRateLimit now id cfg store).2.limit = cfg.maxRequests ∧
    0 ≤ (checkRateLimit now id cfg store).2.remaining ∧
    (checkRateLimit now id cfg store).2.remaining ≤ (cfg.maxRequests : Int) - 1 ∧
    now ≤ (checkRateLimit now id cfg store).2.reset := by
  simp only [checkRateLimit]
  refine ⟨by trivial, le_max_left _ _, ?_, ?_⟩
  · apply max_le
    · omega
    · have hcount : (1 : Int) ≤
          ((match store id with
            | some e => if e.resetTime < now then none else some e
            | none => none).getD
              { count := 0, resetTime := now + cfg.windowMs }).count + 1 := by
        omega
      omega
  · match hs : store id with
    | some e =>
      by_cases hlt : e.resetTime < now
      · simp [hs, hlt]
      · simp [hs, hlt, Nat.le_of_not_lt hlt]
    | none => simp [hs]

/-- Witness for `c9_info_bounds` at a concrete call. -/
theorem c9_info_bounds_witness :
    (checkRateLimit 0 "user" DEFAULT_RATE_LIMIT emptyStore).2.limit =
      DEFAULT_RATE_LIMIT.maxRequests ∧
    0 ≤ (checkRateLimit 0 "user" DEFAULT_RATE_LIMIT emptyStore).2.remaining := by
  have h := c9_info_bounds 0 "user" DEFAULT_RATE_LIMIT emptyStore (by decide)
  exact ⟨h.1, h.2.1⟩

/-! ## Hybrid ranker — `app/api/chat/route.ts` (staged as the third segment
of `src/components/asset-card.tsx`, lines 1472-1495)

```
const THREE_YEARS_MS = 3 * 365 * 24 * 60 * 60 * 1000
const now = Date.now()
const ALPHA = 0.8

const candidates = pineconeResults.map((result) => {
  const purchaseDateMs = result.metadata.image_purchase_date || now
  const age = now - purchaseDateMs
  const recencyScore = Math.max(0, 1 - age / THREE_YEARS_MS)
  const combinedScore = ALPHA * result.score + (1 - ALPHA) * recencyScore
  return { ...result.metadata, similarity: result.score, recencyScore, combinedScore }
})
candidates.sort((a, b) => b.combinedScore - a.combinedScore)
const topCandidates = candidates.slice(0, 10)
```

(The re-ranking snippet of `src/Claude_master-prompt.md` differs in one
place: it has no `|| now` fallback.  The route is the executable code, so it
is the authority here.)

The `||` fallback replaces every falsy `image_purchase_date` — absent,
`null`, NaN (all modelled as `none`), and the number `0` — by `now`, so
`recencyScore` and `combinedScore` are always genuine numbers: the comparator
`(a, b) => b.combinedScore - a.combinedScore` is consistent, and
`Array.prototype.sort` (required stable since ES2019) produces exactly the
stable sorted permutation that `List.mergeSort` produces. -/

def THREE_YEARS_MS : ℚ := 3 * 365 * 24 * 60 * 60 * 1000

def ALPHA : ℚ := 0.8

/-- A Pinecone match as the route reads it: a stable id, the similarity
`score` returned by the index, and `metadata.image_purchase_date` in ms.
`none` models a falsy non-number there — the field absent, `null`, or NaN
(e.g. a failed date parse at ingestion); the falsy number `0` is `some 0`. -/
structure Candidate where
  id : String
  score : ℚ
  image_purchase_date : Option ℚ
deriving Repr, DecidableEq

/-- The route line `const purchaseDateMs = result.metadata.image_purchase_date || now`:
`||` yields `now` for every falsy left operand — absent/`null`/NaN (`none`)
and the number `0`. -/
def purchaseDateMs (now : ℚ) (c : Candidate) : ℚ :=
  match c.image_purchase_date with
  | none => now
  | some t => if t = 0 then now else t

/-- The route lines `const age = now - purchaseDateMs` and
`const recencyScore = Math.max(0, 1 - age / THREE_YEARS_MS)`. -/
def recencyScore (now : ℚ) (c : Candidate) : ℚ :=
  max 0 (1 - (now - purchaseDateMs now c) / THREE_YEARS_MS)

/-- The route line
`const combinedScore = ALPHA * result.score + (1 - ALPHA) * recencyScore`. -/
def combinedScore (now : ℚ) (c : Candidate) : ℚ :=
  ALPHA * c.score + (1 - ALPHA) * recencyScore now c

/-- A mapped candidate record, carrying both derived scores. -/
structure RankedCandidate where
  cand : Candidate
  recencyScore : ℚ
  combinedScore : ℚ
deriving Repr, DecidableEq

/-- The body of the `pineconeResults.map` callback. -/
def annotate (now : ℚ) (c : Candidate) : RankedCandidate :=
  { cand := c, recencyScore := recencyScore now c, combinedScore := combinedScore now c }

/-- The sort order of `(a, b) => b.combinedScore - a.combinedScore`: `a` may
precede `b` iff the comparator result is `≤ 0`, i.e.
`b.combinedScore ≤ a.combinedScore`. -/
def cmpLe (a b : RankedCandidate) : Bool :=
  decide (b.combinedScore ≤ a.combinedScore)

/-- The ranking stage of the route: score, sort descending, `slice(0, 10)`. -/
def rank (now : ℚ) (candidates : List Candidate) : List RankedCandidate :=
  (((candidates.map (annotate now)).mergeSort cmpLe).take 10)

theorem cmpLe_trans (a b c : RankedCandidate) (hab : cmpLe a b = true)
    (hbc : cmpLe b c = true) : cmpLe a c = true := by
  simp only [cmpLe, decide_eq_true_eq] at hab hbc ⊢
  exact le_trans hbc hab

theorem cmpLe_total (a b : RankedCandidate) : (cmpLe a b || cmpLe b a) = true := by
  simp only [cmpLe, Bool.or_eq_true, decide_eq_true_eq]
  exact le_total b.combinedScore a.combinedScore

/-- A falsy purchase date is replaced by `now`, which scores recency
exactly 1. -/
theorem recencyScore_falsy (now : ℚ) (c : Candidate)
    (h : c.image_purchase_date = none ∨ c.image_purchase_date = some 0) :
    recencyScore now c = 1 := by
  have hpd : purchaseDateMs now c = now := by
    rcases h with h | h <;> simp [purchaseDateMs, h]
  rw [recencyScore, hpd]
  rw [show (1 : ℚ) - (now - now) / THREE_YEARS_MS = 1 by norm_num]
  exact max_eq_right zero_le_one

/-- A truthy (nonzero) purchase date is used as is. -/
theorem purchaseDateMs_truthy (now t : ℚ) (c : Candidate)
    (ht : c.image_purchase_date = some t) (htz : t ≠ 0) :
    purchaseDateMs now c = t := by
  simp [purchaseDateMs, ht, htz]

/-- C5 counterexample: a candidate whose `image_purchase_date` is the valid
number `0` — the 1970 epoch, four years older than the three-year window at
`now = 126144000000` — is falsy, so the route's `|| now` fallback makes its
`recencyScore` exactly 1, not the 0 the claim requires for every candidate
older than the window. -/
theorem c5_counterexample :
    THREE_YEARS_MS < (126144000000 : ℚ) - 0 ∧
    recencyScore 126144000000
      { id := "epoch", score := 0.5, image_purchase_date := some 0 } = 1 ∧
    ¬ (recencyScore 126144000000
        { id := "epoch", score := 0.5, image_purchase_date := some 0 } = 0) := by
  refine ⟨by norm_num [THREE_YEARS_MS], recencyScore_falsy _ _ (Or.inr rfl), ?_⟩
  rw [recencyScore_falsy _ _ (Or.inr rfl)]
  norm_num

/-- C5 (amended): the recency window is three years in milliseconds, and
`recencyScore = max(0, 1 - age / RECENCY_WINDOW)` for every candidate whose
acquisition timestamp is a truthy number (nonzero, non-NaN): such a candidate
strictly older than the window scores exactly 0 (never negative), and one
acquired at the current time scores exactly 1.  A candidate with a falsy
timestamp — absent, NaN, or the number 0 — is scored as if acquired now
(recency exactly 1) by the route fallback `image_purchase_date || now`. -/
theorem c5_recency_window :
    THREE_YEARS_MS = 3 * 365 * 24 * 60 * 60 * 1000 ∧
    (∀ (now t : ℚ) (c : Candidate), c.image_purchase_date = some t → t ≠ 0 →
      recencyScore now c = max 0 (1 - (now - t) / THREE_YEARS_MS) ∧
      (THREE_YEARS_MS < now - t → recencyScore now c = 0) ∧
      (t = now → recencyScore now c = 1)) ∧
    (∀ (now : ℚ) (c : Candidate),
      c.image_purchase_date = none ∨ c.image_purchase_date = some 0 →
      recencyScore now c = 1) := by
  refine ⟨rfl, ?_, fun now c h => recencyScore_falsy now c h⟩
  intro now t c ht htz
  have hpd : purchaseDateMs now c = t := purchaseDateMs_truthy now t c ht htz
  have hW : (0 : ℚ) < THREE_YEARS_MS := by norm_num [THREE_YEARS_MS]
  refine ⟨by rw [recencyScore, hpd], ?_, ?_⟩
  · intro hold
    have h1 : (1 : ℚ) < (now - t) / THREE_YEARS_MS := by
      rw [lt_div_iff₀ hW]
      linarith
    rw [recencyScore, hpd]
    exact max_eq_left (by linarith)
  · intro hnow
    subst hnow
    rw [recencyScore, hpd]
    rw [show (1 : ℚ) - (t - t) / THREE_YEARS_MS = 1 by norm_num]
    exact max_eq_right zero_le_one

/-- Witness for `c5_recency_window`: a four-year-old candidate (truthy
timestamp 1) scores 0, a just-acquired one scores 1, and a candidate with a
missing timestamp scores 1 via the fallback. -/
theorem c5_recency_window_witness :
    recencyScore 126144000001
      { id := "old", score := 0.5, image_purchase_date := some 1 } = 0 ∧
    recencyScore 7 { id := "fresh", score := 0.5, image_purchase_date := some 7 } = 1 ∧
    recencyScore 42 { id := "missing", score := 0.5, image_purchase_date := none } = 1 := by
  refine ⟨?_, ?_, ?_⟩
  · exact (c5_recency_window.2.1 126144000001 1 _ rfl (by norm_num)).2.1
      (by norm_num [THREE_YEARS_MS])
  · exact (c5_recency_window.2.1 7 7 _ rfl (by norm_num)).2.2 rfl
  · exact c5_recency_window.2.2 42 _ (Or.inl rfl)

/-- Members of the ranked output come from annotating input candidates. -/
theorem mem_rank (now : ℚ) (candidates : List Candidate) (r : RankedCandidate)
    (hr : r ∈ rank now candidates) : ∃ c ∈ candidates, r = annotate now c := by
  have h1 : r ∈ (candidates.map (annotate now)).mergeSort cmpLe :=
    List.mem_of_mem_take hr
  have h2 : r ∈ candidates.map (annotate now) := List.mem_mergeSort.mp h1
  obtain ⟨c, hc, hce⟩ := List.mem_map.mp h2
  exact ⟨c, hc, hce.symm⟩

/-- The ranked output is pairwise ordered by the embedded comparator. -/
theorem rank_pairwise (now : ℚ) (candidates : List Candidate) :
    (rank now candidates).Pairwise (fun a b => cmpLe a b = true) := by
  have hs : ((candidates.map (annotate now)).mergeSort cmpLe).Pairwise
      (fun a b => cmpLe a b = true) :=
    List.sorted_mergeSort cmpLe_trans cmpLe_total _
  exact hs.sublist (List.take_sublist _ _)

/-- C4: for every candidate list, the route assigns every candidate
`combinedScore = 0.8 * similarity + 0.2 * recencyScore`, the returned list is
ordered with `combinedScore` monotonically non-increasing, and contains at
most 10 candidates. -/
theorem c4_combined_sorted_top10 (now : ℚ) (candidates : List Candidate) :
    (∀ c ∈ candidates, (annotate now c).combinedScore =
      0.8 * c.score + 0.2 * (annotate now c).recencyScore) ∧
    (∀ r ∈ rank now candidates,
      r.combinedScore = 0.8 * r.cand.score + 0.2 * r.recencyScore) ∧
    (rank now candidates).Pairwise (fun a b => b.combinedScore ≤ a.combinedScore) ∧
    (rank now candidates).length ≤ 10 := by
  have hf : ∀ c : Candidate, (annotate now c).combinedScore =
      0.8 * c.score + 0.2 * (annotate now c).recencyScore := by
    intro c
    simp only [annotate, combinedScore]
    norm_num [ALPHA]
  refine ⟨fun c _ => hf c, ?_, ?_, ?_⟩
  · intro r hr
    obtain ⟨c, hc, hce⟩ := mem_rank now candidates r hr
    rw [hce]
    exact hf c
  · refine (rank_pairwise now candidates).imp ?_
    intro a b hab
    simpa [cmpLe] using hab
  · simp [rank]

/-- Witness for `c4_combined_sorted_top10` at a concrete two-candidate list. -/
theorem c4_combined_sorted_top10_witness :
    (rank 126144000000
      [{ id := "a", score := 0.5, image_purchase_date := some 126144000000 },
       { id := "b", score := 0.5, image_purchase_date := some 1 }]).length ≤ 10 :=
  (c4_combined_sorted_top10 126144000000
    [{ id := "a", score := 0.5, image_purchase_date := some 126144000000 },
     { id := "b", score := 0.5, image_purchase_date := some 1 }]).2.2.2

/-- Candidates whose `combinedScore`s are equal compare `≤ 0` under the
comparator, so a stable sort keeps their original order. -/
theorem cmpLe_of_eq (a b : RankedCandidate)
    (h : a.combinedScore = b.combinedScore) : cmpLe a b = true := by
  simp [cmpLe, h]

/-! Scenario B of the spec: 30 candidates, similarity uniformly 0.5, one
acquired right now and 29 acquired five years ago (all timestamps truthy, so
the fallback is not involved and route and snippet agree exactly). -/

def FIVE_YEARS_MS : ℚ := 5 * 365 * 24 * 60 * 60 * 1000

def scenarioNow : ℚ := 200000000000

def nowC : Candidate :=
  { id := "now", score := 0.5, image_purchase_date := some scenarioNow }

def oldC (i : Nat) : Candidate :=
  { id := "old" ++ toString i, score := 0.5,
    image_purchase_date := some (scenarioNow - FIVE_YEARS_MS) }

def scenarioB : List Candidate := nowC :: (List.range 29).map oldC

theorem combined_nowC : combinedScore scenarioNow nowC = 3 / 5 := by
  have h : recencyScore scenarioNow nowC = 1 := by
    have hpd : purchaseDateMs scenarioNow nowC = scenarioNow :=
      purchaseDateMs_truthy _ _ _ rfl (by norm_num [scenarioNow])
    rw [recencyScore, hpd]
    rw [show (1 : ℚ) - (scenarioNow - scenarioNow) / THREE_YEARS_MS = 1 by
      norm_num]
    exact max_eq_right zero_le_one
  rw [combinedScore, h]
  norm_num [ALPHA, nowC]

theorem combined_oldC (i : Nat) : combinedScore scenarioNow (oldC i) = 2 / 5 := by
  have h : recencyScore scenarioNow (oldC i) = 0 := by
    have hpd : purchaseDateMs scenarioNow (oldC i) = scenarioNow - FIVE_YEARS_MS :=
      purchaseDateMs_truthy _ _ _ rfl (by norm_num [scenarioNow, FIVE_YEARS_MS])
    rw [recencyScore, hpd]
    rw [show (1 : ℚ) - (scenarioNow - (scenarioNow - FIVE_YEARS_MS)) / THREE_YEARS_MS
        = -(2 / 3) by norm_num [FIVE_YEARS_MS, THREE_YEARS_MS]]
    exact max_eq_left (by norm_num)
  rw [combinedScore, h]
  norm_num [ALPHA, oldC]

theorem scenarioB_mem (x : RankedCandidate)
    (hx : x ∈ scenarioB.map (annotate scenarioNow)) :
    x = annotate scenarioNow nowC ∨ x.combinedScore = 2 / 5 := by
  rcases List.mem_map.mp hx with ⟨c, hc, rfl⟩
  rcases List.mem_cons.mp hc with rfl | hold
  · exact Or.inl rfl
  · obtain ⟨i, _, rfl⟩ := List.mem_map.mp hold
    exact Or.inr (by simpa [annotate] using combined_oldC i)

/-- C6: the embedded sort is stable — two candidates with equal
`combinedScore` that appear in a given order in the scored input appear in the
same order in the sorted output — and in Scenario B (30 candidates of
similarity 0.5, one acquired now, the others five years ago) the
just-acquired candidate is ranked first, above the equally-similar older
ones. -/
theorem c6_stable_ties_and_scenario :
    (∀ (now : ℚ) (candidates : List Candidate) (a b : RankedCandidate),
      a.combinedScore = b.combinedScore →
      [a, b].Sublist (candidates.map (annotate now)) →
      [a, b].Sublist ((candidates.map (annotate now)).mergeSort cmpLe)) ∧
    (rank scenarioNow scenarioB).head?.map (fun r => r.cand.id) = some "now" := by
  constructor
  · intro now candidates a b heq hsub
    refine List.sublist_mergeSort cmpLe_trans cmpLe_total ?_ hsub
    exact List.pairwise_cons.mpr
      ⟨fun c hc => by rw [List.mem_singleton.mp hc]; exact cmpLe_of_eq a b heq,
       List.pairwise_singleton _ _⟩
  · have hnow_mem : annotate scenarioNow nowC ∈
        (scenarioB.map (annotate scenarioNow)).mergeSort cmpLe := by
      refine List.mem_mergeSort.mpr (List.mem_map.mpr ⟨nowC, ?_, rfl⟩)
      exact List.mem_cons_self _ _
    have hpair : ((scenarioB.map (annotate scenarioNow)).mergeSort cmpLe).Pairwise
        (fun a b => cmpLe a b = true) :=
      List.sorted_mergeSort cmpLe_trans cmpLe_total _
    cases hSe : (scenarioB.map (annotate scenarioNow)).mergeSort cmpLe with
    | nil => rw [hSe] at hnow_mem; cases hnow_mem
    | cons h t =>
      have hhead : h = annotate scenarioNow nowC := by
        by_contra hne
        have hmem_t : annotate scenarioNow nowC ∈ t := by
          rw [hSe] at hnow_mem
          rcases List.mem_cons.mp hnow_mem with heq | hm
          · exact absurd heq.symm hne
          · exact hm
        have hcmp : cmpLe h (annotate scenarioNow nowC) = true := by
          rw [hSe] at hpair
          exact (List.pairwise_cons.mp hpair).1 _ hmem_t
        have hh_as : h ∈ scenarioB.map (annotate scenarioNow) :=
          (List.mergeSort_perm _ cmpLe).subset (by rw [hSe]; exact List.mem_cons_self _ _)
        rcases scenarioB_mem h hh_as with rfl | h4
        · exact hne rfl
        · have h6 : (annotate scenarioNow nowC).combinedScore = 3 / 5 := by
            simpa [annotate] using combined_nowC
          rw [cmpLe, h4, h6] at hcmp
          norm_num at hcmp
      have hrank : rank scenarioNow scenarioB = (h :: t).take 10 := by
        rw [rank, hSe]
      rw [hrank, show (10 : Nat) = 9 + 1 from rfl, List.take_succ_cons, hhead]
      simp [annotate, nowC]

/-- Witness for `c6_stable_ties_and_scenario`: two equally-scored candidates
keep their input order through the sort. -/
theorem c6_stable_ties_and_scenario_witness :
    [annotate 10 { id := "p", score := 1, image_purchase_date := some 10 },
     annotate 10 { id := "q", score := 1, image_purchase_date := some 10 }].Sublist
      (([{ id := "p", score := 1, image_purchase_date := some 10 },
         { id := "q", score := 1, image_purchase_date := some 10 }].map
          (annotate 10)).mergeSort cmpLe) := by
  refine c6_stable_ties_and_scenario.1 10
    [{ id := "p", score := 1, image_purchase_date := some 10 },
     { id := "q", score := 1, image_purchase_date := some 10 }] _ _ ?_ ?_
  · simp [annotate, combinedScore, recencyScore, purchaseDateMs]
  · simp [List.Sublist.refl]

/-- A candidate whose `metadata.image_purchase_date` is malformed: absent,
`null`, or NaN — all falsy. -/
def malformedC : Candidate := { id := "bad", score := 0.9, image_purchase_date := none }

/-- C2 counterexample: a candidate with a malformed acquisition timestamp is
NOT dropped from the ranked output.  Ranking the one-element list containing
it returns that candidate, scored through the `|| now` fallback as if
acquired right now: `recencyScore = 1` and
`combinedScore = 0.8 * 0.9 + 0.2 = 0.92` — retained, boosted, and not the
empty output the claim requires. -/
theorem c2_counterexample :
    rank 1000 [malformedC] =
      [{ cand := malformedC, recencyScore := 1, combinedScore := 0.92 }] := by
  have h1 : recencyScore 1000 malformedC = 1 :=
    recencyScore_falsy 1000 malformedC (Or.inl rfl)
  have h2 : combinedScore 1000 malformedC = 0.92 := by
    rw [combinedScore, h1]
    norm_num [ALPHA, malformedC]
  simp [rank, annotate, h1, h2]

/-- C2 (amended): the ranking stage is a total function — no input aborts the
request — but a candidate with a malformed timestamp is retained, not
dropped: every input candidate (malformed or not) appears, scored, in the
sorted list, and in the top-10 output whenever at most 10 candidates were
supplied.  A malformed one is scored through the `|| now` fallback as if
acquired right now — `recencyScore = 1` and a boosted
`combinedScore = 0.8 * similarity + 0.2`.  Well-formed candidates are
likewise all ranked. -/
theorem c2_malformed_retained (now : ℚ) (candidates : List Candidate) :
    (∀ c ∈ candidates,
      annotate now c ∈ (candidates.map (annotate now)).mergeSort cmpLe) ∧
    (candidates.length ≤ 10 → ∀ c ∈ candidates, annotate now c ∈ rank now candidates) ∧
    (∀ c ∈ candidates, c.image_purchase_date = none →
      (annotate now c).recencyScore = 1 ∧
      (annotate now c).combinedScore = 0.8 * c.score + 0.2) := by
  have hmem : ∀ c ∈ candidates,
      annotate now c ∈ (candidates.map (annotate now)).mergeSort cmpLe := by
    intro c hc
    exact List.mem_mergeSort.mpr (List.mem_map.mpr ⟨c, hc, rfl⟩)
  refine ⟨hmem, ?_, ?_⟩
  · intro hlen c hc
    have hlen2 : ((candidates.map (annotate now)).mergeSort cmpLe).length ≤ 10 := by
      rw [List.length_mergeSort, List.length_map]
      exact hlen
    rw [rank, List.take_of_length_le hlen2]
    exact hmem c hc
  · intro c _ hc
    have h1 : recencyScore now c = 1 := recencyScore_falsy now c (Or.inl hc)
    refine ⟨by simpa [annotate] using h1, ?_⟩
    simp only [annotate, combinedScore, h1]
    norm_num [ALPHA]

/-- Witness for `c2_malformed_retained`: the malformed candidate of the
counterexample is indeed retained in a concrete ranked output. -/
theorem c2_malformed_retained_witness :
    annotate 1000 malformedC ∈ rank 1000 [malformedC] :=
  (c2_malformed_retained 1000 [malformedC]).2.1 (by simp)
    malformedC (List.mem_singleton.mpr rfl)

/-! ## Response generator — `src/lib/gemini.ts` with the zod schemas of
`lib/types.ts`

`generateChatResponse(userQuery, candidates)` serializes its arguments into a
prompt, sends it to the external generative model, and then runs
`JSON.parse` followed by `GeminiChatResponseSchema.parse` on the returned
text; any fault inside the `try` block lands in the single `catch`, which
rethrows `new Error('Failed to generate chat response')`.  The external call
(and `JSON.parse`, a host builtin) is an oracle here: `ModelOutcome` is its
outcome, and everything the repository's own code does with that outcome is
embedded. -/

/-- A JSON value as produced by `JSON.parse`; keys of an `obj` are unique, as
on a JavaScript object. -/
inductive Json where
  | null : Json
  | bool (b : Bool) : Json
  | num (q : ℚ) : Json
  | str (s : String) : Json
  | arr (elems : List Json) : Json
  | obj (fields : List (String × Json)) : Json

/-- Output of `BrandonAssetSchema` (`lib/types.ts`): `dam_id`, `file_name`
and `url` are `.optional().nullable()`; an absent key and an explicit `null`
are both modelled as `none`. -/
structure BrandonAsset where
  id : String
  dam_id : Option String
  file_name : Option String
  url : Option String
  preview_path : String
  label : String
  reason : String
deriving Repr, DecidableEq

/-- Output of `GeminiChatResponseSchema` (`lib/types.ts`). -/
structure GeminiChatResponse where
  assistant_message : String
  assets : List BrandonAsset
deriving Repr, DecidableEq

def isHexDigit (c : Char) : Bool :=
  c.isDigit || ('a' ≤ c && c ≤ 'f') || ('A' ≤ c && c ≤ 'F')

/-- Split a character list at every `'-'` (the group structure a uuid regex
inspects). -/
def splitDash : List Char → List (List Char)
  | [] => [[]]
  | c :: cs =>
    let rest := splitDash cs
    if c = '-' then [] :: rest
    else
      match rest with
      | g :: gs => (c :: g) :: gs
      | [] => [[c]]

/-- The check `z.string().uuid()`: five hyphen-separated hexadecimal groups of lengths
8-4-4-4-12 (case-insensitive). -/
def isUuid (s : String) : Bool :=
  match splitDash s.toList with
  | [a, b, c, d, e] =>
    a.length == 8 && b.length == 4 && c.length == 4 && d.length == 4 &&
      e.length == 12 && (a ++ b ++ c ++ d ++ e).all isHexDigit
  | _ => false

def asString : Json → Option String
  | .str s => some s
  | _ => none

/-- A required `z.string()` object field. -/
def requiredString (fields : List (String × Json)) (key : String) : Option String :=
  (fields.lookup key).bind asString

/-- A `z.string().optional().nullable()` object field: absent or `null`
validate to `none`, a string to itself, any other value fails. -/
def optNullString (fields : List (String × Json)) (key : String) :
    Option (Option String) :=
  match fields.lookup key with
  | none => some none
  | some Json.null => some none
  | some (Json.str s) => some (some s)
  | some _ => none

/-- Validation by `BrandonAssetSchema.parse` (zod returns the validated value or throws;
`none` models the throw). -/
def parseBrandonAsset (j : Json) : Option BrandonAsset :=
  match j with
  | .obj fields =>
    (requiredString fields "id").bind fun id =>
    if isUuid id then
      (optNullString fields "dam_id").bind fun dam_id =>
      (optNullString fields "file_name").bind fun file_name =>
      (optNullString fields "url").bind fun url =>
      (requiredString fields "preview_path").bind fun preview_path =>
      (requiredString fields "label").bind fun label =>
      (requiredString fields "reason").bind fun reason =>
      some { id := id, dam_id := dam_id, file_name := file_name, url := url,
             preview_path := preview_path, label := label, reason := reason }
    else none
  | _ => none

/-- Validation by `z.array(BrandonAssetSchema).parse`: element-wise, failing if any element
fails. -/
def parseAssets : List Json → Option (List BrandonAsset)
  | [] => some []
  | j :: js =>
    (parseBrandonAsset j).bind fun a =>
    (parseAssets js).bind fun rest =>
    some (a :: rest)

/-- Validation by `GeminiChatResponseSchema.parse`. -/
def parseGeminiChatResponse (j : Json) : Option GeminiChatResponse :=
  match j with
  | .obj fields =>
    (requiredString fields "assistant_message").bind fun msg =>
    (fields.lookup "assets").bind fun assetsJ =>
    match assetsJ with
    | .arr elems =>
      (parseAssets elems).bind fun assets =>
      some { assistant_message := msg, assets := assets }
    | _ => none
  | _ => none

/-- Outcome of the `chatModel.generateContent` call composed with
`result.response.text()` and `JSON.parse` on the (fence-stripped) text. -/
inductive ModelOutcome where
  | callFailed : ModelOutcome
  | unparsable : ModelOutcome
  | parsed (j : Json) : ModelOutcome

/-- The function `generateChatResponse` of `src/lib/gemini.ts`.  `userQuery` and
`candidates` flow only into the prompt handed to the external call — never
into the validation of its output. -/
def generateChatResponse (userQuery : String) (candidates : List Candidate)
    (outcome : ModelOutcome) : Except String GeminiChatResponse :=
  match outcome with
  | .callFailed => .error "Failed to generate chat response"
  | .unparsable => .error "Failed to generate chat response"
  | .parsed j =>
    match parseGeminiChatResponse j with
    | none => .error "Failed to generate chat response"
    | some r => .ok r

/-- Every asset accepted by the schema carries a uuid-shaped id. -/
theorem parseBrandonAsset_uuid (j : Json) (a : BrandonAsset)
    (h : parseBrandonAsset j = some a) : isUuid a.id = true := by
  cases j
  all_goals simp only [parseBrandonAsset] at h
  any_goals exact Option.noConfusion h
  simp only [Option.bind_eq_some] at h
  obtain ⟨id, _, h⟩ := h
  by_cases hu : isUuid id
  · rw [if_pos hu] at h
    simp only [Option.bind_eq_some, Option.some.injEq] at h
    obtain ⟨d, _, f, _, u, _, p, _, l, _, r, _, heq⟩ := h
    rw [← heq]
    exact hu
  · rw [if_neg hu] at h
    exact Option.noConfusion h

/-- Elements of a successfully validated asset array each come from a
successfully parsed element of the input array. -/
theorem parseAssets_mem (elems : List Json) (assets : List BrandonAsset)
    (h : parseAssets elems = some assets) (a : BrandonAsset)
    (ha : a ∈ assets) : ∃ j ∈ elems, parseBrandonAsset j = some a := by
  induction elems generalizing assets with
  | nil =>
    simp only [parseAssets, Option.some.injEq] at h
    subst h
    cases ha
  | cons x xs ih =>
    simp only [parseAssets, Option.bind_eq_some, Option.some.injEq] at h
    obtain ⟨b, hb, bs, hbs, heq⟩ := h
    subst heq
    rcases List.mem_cons.mp ha with rfl | hmem
    · exact ⟨x, List.mem_cons_self _ _, hb⟩
    · obtain ⟨j, hj, hpj⟩ := ih bs hbs hmem
      exact ⟨j, List.mem_cons_of_mem _ hj, hpj⟩

/-- Every asset of a schema-accepted response has a uuid-shaped id. -/
theorem parseGeminiChatResponse_assets (j : Json) (r : GeminiChatResponse)
    (h : parseGeminiChatResponse j = some r) :
    ∀ a ∈ r.assets, isUuid a.id = true := by
  cases j
  all_goals simp only [parseGeminiChatResponse] at h
  any_goals exact Option.noConfusion h
  simp only [Option.bind_eq_some] at h
  obtain ⟨msg, _, aj, _, h⟩ := h
  cases aj
  all_goals try exact Option.noConfusion h
  simp only [Option.bind_eq_some, Option.some.injEq] at h
  obtain ⟨assets, hassets, heq⟩ := h
  subst heq
  intro a ha
  obtain ⟨je, _, hpj⟩ := parseAssets_mem _ assets hassets a ha
  exact parseBrandonAsset_uuid je a hpj

/-- C8: `generateChatResponse` fails exactly when the generative call fails,
its text does not parse as JSON, or the parsed value fails schema validation;
every failure carries only the fixed generic message
`'Failed to generate chat response'`; and a success returns exactly the
schema-validated value of the parsed model output — never a coerced or
partial one. -/
theorem c8_generic_error_iff (userQuery : String) (candidates : List Candidate)
    (outcome : ModelOutcome) :
    ((∃ e, generateChatResponse userQuery candidates outcome = Except.error e) ↔
      (outcome = ModelOutcome.callFailed ∨ outcome = ModelOutcome.unparsable ∨
        ∃ j, outcome = ModelOutcome.parsed j ∧ parseGeminiChatResponse j = none)) ∧
    (∀ e, generateChatResponse userQuery candidates outcome = Except.error e →
      e = "Failed to generate chat response") ∧
    (∀ r, generateChatResponse userQuery candidates outcome = Except.ok r →
      ∃ j, outcome = ModelOutcome.parsed j ∧ parseGeminiChatResponse j = some r) := by
  cases outcome with
  | callFailed =>
    exact ⟨⟨fun _ => Or.inl rfl, fun _ => ⟨_, rfl⟩⟩,
      fun e he => (Except.error.injEq _ _ ▸ he).symm ▸ rfl,
      fun r hr => Except.noConfusion hr⟩
  | unparsable =>
    exact ⟨⟨fun _ => Or.inr (Or.inl rfl), fun _ => ⟨_, rfl⟩⟩,
      fun e he => (Except.error.injEq _ _ ▸ he).symm ▸ rfl,
      fun r hr => Except.noConfusion hr⟩
  | parsed j =>
    cases hp : parseGeminiChatResponse j with
    | none =>
      refine ⟨⟨fun _ => Or.inr (Or.inr ⟨j, rfl, hp⟩),
        fun _ => ⟨"Failed to generate chat response", ?_⟩⟩, ?_, ?_⟩
      · simp [generateChatResponse, hp]
      · intro e he
        simp only [generateChatResponse, hp] at he
        exact (Except.error.injEq _ _ ▸ he).symm
      · intro r hr
        simp only [generateChatResponse, hp] at hr
        exact Except.noConfusion hr
    | some v =>
      refine ⟨⟨?_, ?_⟩, ?_, ?_⟩
      · intro ⟨e, he⟩
        simp only [generateChatResponse, hp] at he
        exact Except.noConfusion he
      · rintro (h | h | ⟨j', hj', hnone⟩)
        · exact ModelOutcome.noConfusion h
        · exact ModelOutcome.noConfusion h
        · cases hj'
          rw [hp] at hnone
          exact Option.noConfusion hnone
      · intro e he
        simp only [generateChatResponse, hp] at he
        exact Except.noConfusion he
      · intro r hr
        simp only [generateChatResponse, hp] at hr
        exact ⟨j, rfl, hp.trans (congrArg some (Except.ok.injEq _ _ ▸ hr))⟩

/-- Witness for `c8_generic_error_iff`: a failed call yields the generic
error and nothing else. -/
theorem c8_generic_error_iff_witness :
    generateChatResponse "q" [] ModelOutcome.callFailed =
      Except.error "Failed to generate chat response" := by
  obtain ⟨e, he⟩ :=
    (c8_generic_error_iff "q" [] ModelOutcome.callFailed).1.mpr (Or.inl rfl)
  have hmsg := (c8_generic_error_iff "q" [] ModelOutcome.callFailed).2.1 e he
  rw [hmsg] at he
  exact he

/-- The one candidate supplied to the generator in the C3 counterexample. -/
def c3Candidate : Candidate :=
  { id := "11111111-1111-1111-1111-111111111111", score := 1,
    image_purchase_date := some 0 }

/-- A well-shaped model output whose asset id appears nowhere among the
supplied candidates. -/
def fabricatedJson : Json :=
  Json.obj
    [("assistant_message", Json.str "Here is a great match."),
     ("assets", Json.arr
       [Json.obj
         [("id", Json.str "22222222-2222-2222-2222-222222222222"),
          ("preview_path", Json.str "previews/fake.jpg"),
          ("label", Json.str "Fake asset"),
          ("reason", Json.str "Fabricated by the model")]])]

/-- C3 counterexample: `generateChatResponse` accepts a schema-valid model
output whose asset identifier `2222…` is not among the identifiers of the
supplied candidates (`1111…`): no post-hoc membership check exists. -/
theorem c3_counterexample :
    generateChatResponse "query" [c3Candidate] (ModelOutcome.parsed fabricatedJson) =
      Except.ok
        { assistant_message := "Here is a great match.",
          assets := [{ id := "22222222-2222-2222-2222-222222222222",
                       dam_id := none, file_name := none, url := none,
                       preview_path := "previews/fake.jpg", label := "Fake asset",
                       reason := "Fabricated by the model" }] } ∧
    "22222222-2222-2222-2222-222222222222" ∉ [c3Candidate].map Candidate.id := by
  constructor
  · rfl
  · decide

/-- C3 (amended): `generateChatResponse` validates only shape: its result is
independent of the supplied candidate list, and an accepted response's asset
identifiers are exactly those of the schema-validated model output (uuid
format enforced, candidate membership not enforced — the spec leaves that
check to the caller). -/
theorem c3_no_membership_check (userQuery : String) (cs cs' : List Candidate)
    (outcome : ModelOutcome) :
    generateChatResponse userQuery cs outcome =
      generateChatResponse userQuery cs' outcome ∧
    (∀ r, generateChatResponse userQuery cs outcome = Except.ok r →
      ∃ j, outcome = ModelOutcome.parsed j ∧ parseGeminiChatResponse j = some r ∧
        ∀ a ∈ r.assets, isUuid a.id = true) := by
  refine ⟨rfl, ?_⟩
  intro r hr
  cases outcome with
  | callFailed => exact Except.noConfusion hr
  | unparsable => exact Except.noConfusion hr
  | parsed j =>
    cases hp : parseGeminiChatResponse j with
    | none =>
      simp only [generateChatResponse, hp] at hr
      exact Except.noConfusion hr
    | some v =>
      simp only [generateChatResponse, hp] at hr
      have hv : v = r := Except.ok.injEq _ _ ▸ hr
      subst hv
      exact ⟨j, rfl, hp, parseGeminiChatResponse_assets j v hp⟩

/-- Witness for `c3_no_membership_check`: the result with the counterexample
candidate list equals the result with no candidates at all. -/
theorem c3_no_membership_check_witness :
    generateChatResponse "query" [c3Candidate] (ModelOutcome.parsed fabricatedJson) =
      generateChatResponse "query" [] (ModelOutcome.parsed fabricatedJson) :=
  (c3_no_membership_check "query" [c3Candidate] [] (ModelOutcome.parsed fabricatedJson)).1

/-! ## Auth helpers — `src/lib/auth-helpers.ts`

Supabase is external: `supabase.auth.getUser()` and the
`user_roles.select('role').eq('user_id', userId).single()` query are oracles,
supplied as the outcome they produced.  Thrown `AuthError`s are the `error`
side of an `Except`. -/

structure AuthUser where
  id : String
deriving Repr, DecidableEq

structure AuthError where
  message : String
deriving Repr, DecidableEq

/-- Outcome of the `.single()` query on `user_roles`: an error, no row, or a
row whose `role` column holds an arbitrary stored string (the code casts it
unchecked with `as UserRole`). -/
inductive RoleLookup where
  | queryError : RoleLookup
  | noRow : RoleLookup
  | found (role : String) : RoleLookup
deriving Repr, DecidableEq

/-- The helper `requireAuth`: `if (error || !user) throw new AuthError('Not authenticated')`. -/
def requireAuth (getUserResult : Option AuthUser) : Except AuthError AuthUser :=
  match getUserResult with
  | none => Except.error { message := "Not authenticated" }
  | some user => Except.ok user

/-- The helper `getUserRole`: `if (error || !data) return 'user'; return data.role as UserRole`. -/
def getUserRole (lookup : RoleLookup) : String :=
  match lookup with
  | RoleLookup.queryError => "user"
  | RoleLookup.noRow => "user"
  | RoleLookup.found role => role

/-- The helper `requireAdmin`: authenticate, resolve the role, and
`if (role !== 'admin') throw new AuthError('Admin access required')`. -/
def requireAdmin (getUserResult : Option AuthUser)
    (roleLookup : String → RoleLookup) : Except AuthError AuthUser :=
  match requireAuth getUserResult with
  | Except.error e => Except.error e
  | Except.ok user =>
    if getUserRole (roleLookup user.id) ≠ "admin" then
      Except.error { message := "Admin access required" }
    else
      Except.ok user

/-- C10: role resolution fails closed.  A lookup error or a missing row
resolves to the `'user'` role; an authenticated user whose stored lookup is
anything other than an explicit `'admin'` row is refused by `requireAdmin`
with an `AuthError`; and conversely `requireAdmin` only ever succeeds for an
authenticated user with an explicit stored `'admin'` role — admin access is
never granted by default. -/
theorem c10_fails_closed :
    getUserRole RoleLookup.queryError = "user" ∧
    getUserRole RoleLookup.noRow = "user" ∧
    (∀ (u : AuthUser) (roleLookup : String → RoleLookup),
      roleLookup u.id ≠ RoleLookup.found "admin" →
      requireAdmin (some u) roleLookup =
        Except.error { message := "Admin access required" }) ∧
    (∀ (getUserResult : Option AuthUser) (roleLookup : String → RoleLookup)
      (u : AuthUser), requireAdmin getUserResult roleLookup = Except.ok u →
      getUserResult = some u ∧ roleLookup u.id = RoleLookup.found "admin") := by
  refine ⟨rfl, rfl, ?_, ?_⟩
  · intro u roleLookup hne
    have hrole : getUserRole (roleLookup u.id) ≠ "admin" := by
      cases hl : roleLookup u.id with
      | queryError => simp [getUserRole]
      | noRow => simp [getUserRole]
      | found role =>
        simp only [getUserRole]
        intro hr
        exact hne (hr ▸ hl)
    simp [requireAdmin, requireAuth, hrole]
  · intro getUserResult roleLookup u hok
    cases getUserResult with
    | none => exact Except.noConfusion hok
    | some v =>
      simp only [requireAdmin, requireAuth] at hok
      by_cases hrole : getUserRole (roleLookup v.id) ≠ "admin"
      · rw [if_pos hrole] at hok
        exact Except.noConfusion hok
      · rw [if_neg hrole] at hok
        have hv : v = u := Except.ok.injEq _ _ ▸ hok
        subst hv
        rw [not_not] at hrole
        refine ⟨rfl, ?_⟩
        cases hl : roleLookup v.id with
        | queryError => rw [hl] at hrole; exact absurd hrole (by simp [getUserRole])
        | noRow => rw [hl] at hrole; exact absurd hrole (by simp [getUserRole])
        | found role =>
          rw [hl] at hrole
          simp only [getUserRole] at hrole
          rw [hrole]

/-- Witness for `c10_fails_closed`: a user whose role lookup finds no row is
refused admin access. -/
theorem c10_fails_closed_witness :
    requireAdmin (some { id := "u1" }) (fun _ => RoleLookup.noRow) =
      Except.error { message := "Admin access required" } :=
  c10_fails_closed.2.2.1 { id := "u1" } (fun _ => RoleLookup.noRow) (by decide)

end Brandon
